import Mathlib

/-!
Shallow embedding of `src/trim_hdf5.py`, an HDF5 copy-and-trim script, and
verification of the behavioural claims about it.

The HDF5 tree is embedded as a nested inductive: groups hold named children,
datasets hold a payload (a scalar value, or a list of rows along axis 0 with
trailing axes folded into each opaque row value), compression metadata and
attributes.  Operations that can raise in the Python code (reading a dataset's
data, creating a group / copying its attributes, opening a file, copying root
attributes) are embedded as boolean `fail` flags on the corresponding entity;
a raised exception is the flag being `true`.
-/

/-- Payload of a dataset: `scalarVal` embeds a zero-axis dataset,
`arr` embeds a dataset with at least one axis as its list of rows along
axis 0 (`shape[0] = rows.length`; each row is the full trailing sub-array,
held opaquely as an `Int`). -/
inductive DPayload where
  | scalarVal (v : Int)
  | arr (rows : List Int)
deriving DecidableEq, Repr

/-- A dataset: payload, compression codec (`compression`), codec parameters
(`compression_opts`), attribute list, and a `fail` flag meaning that
reading this dataset's data raises an exception. -/
structure Dataset where
  payload : DPayload
  compression : Option String
  compression_opts : Option Nat
  attrs : List (String × String)
  fail : Bool
deriving DecidableEq, Repr

/-- A node of the HDF5 hierarchy: a group (attributes, a flag meaning that
creating this group or copying its attributes raises, and named children in
iteration order) or a dataset. -/
inductive Node where
  | group (attrs : List (String × String)) (fail : Bool)
      (children : List (String × Node))
  | dataset (d : Dataset)

/-- A source HDF5 file: `openFail` embeds "opening the file raises",
`attrsFail` embeds "copying the root attributes raises". -/
structure H5File where
  openFail : Bool
  attrsFail : Bool
  attrs : List (String × String)
  root : List (String × Node)

/-- Progress output of the copy: one record per processed dataset, embedding
the `print` calls of `copy_structure`.  `trimmed` carries original and new
row counts, `copiedFull` the row count, `warning` the dataset path of a
skipped dataset. -/
inductive Progress where
  | trimmed (path : String) (origRows newRows : Nat)
  | copiedFull (path : String) (rows : Nat)
  | warning (path : String)
deriving DecidableEq, Repr

/-- Python index resolution for a slice bound on a sequence of length `n`:
a negative bound counts from the end (clamped below at 0), a non-negative
bound is clamped above at `n`. -/
def pyIdx (n : Nat) (i : Int) : Nat :=
  if i < 0 then ((n : Int) + i).toNat else min i.toNat n

/-- Python slice `xs[s:e]` (step 1) on the list of rows. -/
def pySlice (xs : List Int) (s e : Int) : List Int :=
  (xs.take (pyIdx xs.length e)).drop (pyIdx xs.length s)

/-- `item_path = f"{path}/{key}" if path else key` from `copy_structure`. -/
def joinPath (path key : String) : String :=
  if path = "" then key else path ++ "/" ++ key

/-- Embeds the dataset branch of `copy_structure`
(src/trim_hdf5.py lines 49-89): returns the dataset created in the
destination group (`none` when the copy raised and was skipped) and the
progress records printed.  `start` and `endOpt` are the global window;
`endOpt = none` embeds `end is None`. -/
def copyDataset (start : Int) (endOpt : Option Int) (path : String)
    (d : Dataset) : Option Dataset × List Progress :=
  if d.fail then (none, [.warning path])
  else
    match d.payload with
    | .scalarVal v => (some ⟨.scalarVal v, none, none, d.attrs, false⟩, [])
    | .arr rows =>
      if rows.length > 0 then
        let actualEnd := endOpt.getD (rows.length : Int)
        if actualEnd < (rows.length : Int) then
          let t := pySlice rows start actualEnd
          (some ⟨.arr t, d.compression, d.compression_opts, d.attrs, false⟩,
           [.trimmed path rows.length t.length])
        else
          (some ⟨.arr rows, d.compression, d.compression_opts, d.attrs, false⟩,
           [.copiedFull path rows.length])
      else
        (some ⟨.arr rows, none, none, d.attrs, false⟩, [])

/-- Embeds the recursive `copy_structure` loop: walks the named children of a
group, creating groups (a failing group creation aborts the whole run, as the
exception propagates out of `copy_structure`) and copying datasets (a failing
dataset copy is caught, logged and skipped).  Returns the children created in
the destination and the progress records, or the aborting error. -/
def copyChildren (start : Int) (endOpt : Option Int) (path : String) :
    List (String × Node) → Except String (List (String × Node) × List Progress)
  | [] => .ok ([], [])
  | (k, Node.dataset d) :: rest =>
    match copyDataset start endOpt (joinPath path k) d with
    | (some d2, lg1) =>
      match copyChildren start endOpt path rest with
      | .ok (ro, lg2) => .ok ((k, Node.dataset d2) :: ro, lg1 ++ lg2)
      | .error m => .error m
    | (none, lg1) =>
      match copyChildren start endOpt path rest with
      | .ok (ro, lg2) => .ok (ro, lg1 ++ lg2)
      | .error m => .error m
  | (k, Node.group a gfail cs) :: rest =>
    if gfail then .error (joinPath path k)
    else
      match copyChildren start endOpt (joinPath path k) cs with
      | .error m => .error m
      | .ok (sub, lg1) =>
        match copyChildren start endOpt path rest with
        | .error m => .error m
        | .ok (ro, lg2) => .ok ((k, Node.group a false sub) :: ro, lg1 ++ lg2)
termination_by cs => sizeOf cs

/-- Result of one `trim_hdf5` invocation: `existsError` embeds the
exit-before-any-write when the output exists and `force` is not set;
`ok` carries the destination root attributes, destination tree and progress
log; `abort` embeds the outer `except` path (print error, exit 1). -/
inductive TrimResult where
  | existsError
  | ok (attrs : List (String × String)) (root : List (String × Node))
      (log : List Progress)
  | abort (msg : String)

/-- Embeds `trim_hdf5` (src/trim_hdf5.py lines 10-98): the output-exists
check runs first and writes nothing; then the source is opened, root
attributes copied, and `copy_structure` run, any exception aborting the
run. -/
def trim_hdf5 (input : H5File) (outputExists force : Bool) (start : Int)
    (endOpt : Option Int) : TrimResult :=
  if outputExists && !force then .existsError
  else if input.openFail then .abort "cannot open file"
  else if input.attrsFail then .abort "root attribute copy failed"
  else
    match copyChildren start endOpt "" input.root with
    | .ok (out, lg) => .ok input.attrs out lg
    | .error m => .abort m

/-- Outcome of `main`'s window resolution (src/trim_hdf5.py lines 134-143):
`window start end` proceeds to the copy, `usageError` is the
"START must be less than END" exit, `crash` is the unhandled
`args.range[0]` TypeError when `args.range` is `None`. -/
inductive ResolveResult where
  | window (start e : Int)
  | usageError
  | crash
deriving DecidableEq, Repr

/-- Embeds the argument-to-window resolution in `main`: `if args.rows:` is
Python truthiness, so `rows = some 0` falls through to the range branch. -/
def resolveWindow (rows : Option Int) (rng : Option (Int × Int)) :
    ResolveResult :=
  match rows with
  | some r =>
    if r ≠ 0 then .window 0 r
    else
      match rng with
      | some (s, e) => if s ≥ e then .usageError else .window s e
      | none => .crash
  | none =>
    match rng with
    | some (s, e) => if s ≥ e then .usageError else .window s e
    | none => .crash

/-- Attribute preservation between a source node and a destination node:
equal attribute lists, and (for groups) every destination child corresponds
to a source child with the same name, recursively attribute-preserving. -/
def AttrsMatch : Node → Node → Prop
  | Node.dataset d, Node.dataset d2 => d2.attrs = d.attrs
  | Node.group a _ cs, Node.group a2 _ cs2 =>
      a2 = a ∧ ∀ k n2, (k, n2) ∈ cs2 → ∃ n, (k, n) ∈ cs ∧ AttrsMatch n n2
  | _, _ => False
termination_by n n2 => sizeOf n2
decreasing_by
  rename_i hmem
  have h1 := List.sizeOf_lt_of_mem hmem
  simp at h1 ⊢
  omega

/-- A small source file used to instantiate tree-level theorems: root
attributes, one group with an attribute and no children, and one scalar
dataset with an attribute. -/
def sampleInput : H5File :=
  ⟨false, false, [("ver", "3")],
   [("g", Node.group [("a", "1")] false []),
    ("s", Node.dataset ⟨.scalarVal 7, none, none, [("u", "v")], false⟩)]⟩

/-- The destination tree `trim_hdf5` produces from `sampleInput`. -/
def sampleOut : List (String × Node) :=
  [("g", Node.group [("a", "1")] false []),
   ("s", Node.dataset ⟨.scalarVal 7, none, none, [("u", "v")], false⟩)]

/-- Claim C1 as written is refuted here: with source rows `[3, 7]`
(leading extent `n = 2`), window `start = 1`, `end = 5`, we have
`min(end, n) = 2 > start = 1`, so the claim predicts exactly one output row
equal to `source[1:2] = [7]`; the code instead takes the no-trim branch and
writes the full two-row payload `[3, 7]`. -/
theorem c1_counterexample :
    copyDataset 1 (some 5) "ds" ⟨.arr [3, 7], none, none, [], false⟩
        = (some ⟨.arr [3, 7], none, none, [], false⟩,
           [.copiedFull "ds" 2])
      ∧ DPayload.arr [3, 7] ≠ DPayload.arr [7] := by
  exact ⟨rfl, by decide⟩

/-- Claim C1 (amended): for a non-failing dataset with rows `rows` and a
window with `0 ≤ start < end < n` (so the window genuinely shrinks the
dataset, `min(end, n) = end < n`), the dataset written to the destination
has exactly `end - start` rows and equals `source[start:end]`
element-for-element, with compression and attributes carried over. -/
theorem c1_trim_window (rows : List Int) (start e : Int) (comp : Option String)
    (co : Option Nat) (at0 : List (String × String)) (path : String)
    (h0 : 0 ≤ start) (h1 : start < e) (h2 : e < (rows.length : Int)) :
    ∃ out : List Int,
      copyDataset start (some e) path ⟨.arr rows, comp, co, at0, false⟩
          = (some ⟨.arr out, comp, co, at0, false⟩,
             [.trimmed path rows.length out.length])
        ∧ out.length = (e - start).toNat
        ∧ ∀ i : Nat, i < out.length → out[i]? = rows[start.toNat + i]? := by
  have hn : 0 < rows.length := by omega
  have hs0 : ¬ start < 0 := by omega
  have he0 : ¬ e < 0 := by omega
  refine ⟨pySlice rows start e, ?_, ?_, ?_⟩
  · simp [copyDataset, hn, h2]
  · simp only [pySlice, pyIdx, if_neg hs0, if_neg he0, List.length_drop,
      List.length_take]
    omega
  · intro i hi
    simp only [pySlice, pyIdx, if_neg hs0, if_neg he0] at hi ⊢
    simp only [List.length_drop, List.length_take] at hi
    have hsm : start.toNat ⊓ rows.length = start.toNat := by omega
    have hem : e.toNat ⊓ rows.length = e.toNat := by omega
    rw [hsm, hem, List.getElem?_drop]
    have hlt : start.toNat + i < e.toNat := by omega
    rw [List.getElem?_take_of_lt hlt]

/-- Witness for `c1_trim_window` at rows `[5, 6, 7, 8]`, window `[1, 3)`. -/
theorem c1_trim_window_witness :
    ∃ out : List Int,
      copyDataset 1 (some 3) "w" ⟨.arr [5, 6, 7, 8], none, none, [], false⟩
          = (some ⟨.arr out, none, none, [], false⟩,
             [.trimmed "w" 4 out.length])
        ∧ out.length = ((3 : Int) - 1).toNat
        ∧ ∀ i : Nat, i < out.length →
            out[i]? = [(5 : Int), 6, 7, 8][(1 : Int).toNat + i]? :=
  c1_trim_window [5, 6, 7, 8] 1 3 none none [] "w" (by decide) (by decide)
    (by decide)

/-- Claim C2: for a non-failing dataset with positive leading extent `n`, if
the resolved end (`end` when specified, else `n`) is at least `n`, the full
payload is copied unmodified — the result does not depend on `start` — with
compression and attributes carried over, and the progress record is the
"no trimming" one. -/
theorem c2_no_shrink_full_copy (rows : List Int) (start : Int)
    (endOpt : Option Int) (comp : Option String) (co : Option Nat)
    (at0 : List (String × String)) (path : String)
    (h0 : rows ≠ [])
    (he : (rows.length : Int) ≤ endOpt.getD (rows.length : Int)) :
    copyDataset start endOpt path ⟨.arr rows, comp, co, at0, false⟩
      = (some ⟨.arr rows, comp, co, at0, false⟩,
         [.copiedFull path rows.length]) := by
  have hn : 0 < rows.length := List.length_pos.mpr h0
  have hlt : ¬ endOpt.getD (rows.length : Int) < (rows.length : Int) := by
    omega
  simp [copyDataset, hn, hlt]

/-- Witness for `c2_no_shrink_full_copy`: rows `[9, 9, 9]`, `start = 2`,
`end = 7 ≥ 3`. -/
theorem c2_no_shrink_full_copy_witness :
    copyDataset 2 (some 7) "w2" ⟨.arr [9, 9, 9], none, none, [], false⟩
      = (some ⟨.arr [9, 9, 9], none, none, [], false⟩,
         [.copiedFull "w2" 3]) :=
  c2_no_shrink_full_copy [9, 9, 9] 2 (some 7) none none [] "w2" (by decide)
    (by decide)

/-- Claim C3 as written is refuted here: a dataset with leading extent zero
(shape `(0,)`) carrying gzip compression is copied through the scalar branch
of `copy_structure`, which passes no compression arguments, so the
destination dataset has no compression. -/
theorem c3_counterexample :
    copyDataset 0 (some 1) "z"
        ⟨.arr [], some "gzip", some 4, [], false⟩
      = (some ⟨.arr [], none, none, [], false⟩, [])
      ∧ (none : Option String) ≠ some "gzip" := by
  exact ⟨rfl, by decide⟩

/-- Claim C3 (amended): for every non-failing dataset with at least one axis
and positive leading extent, the destination dataset has the same
compression codec and codec parameters as the source; scalar and
zero-leading-extent datasets are instead written without compression
settings. -/
theorem c3_compression_preserved (rows : List Int) (start : Int)
    (endOpt : Option Int) (comp : Option String) (co : Option Nat)
    (at0 : List (String × String)) (path : String)
    (h0 : rows ≠ []) :
    ∃ d2 lg, copyDataset start endOpt path ⟨.arr rows, comp, co, at0, false⟩
        = (some d2, lg)
      ∧ d2.compression = comp ∧ d2.compression_opts = co := by
  have hn : 0 < rows.length := List.length_pos.mpr h0
  by_cases hlt : endOpt.getD (rows.length : Int) < (rows.length : Int)
  · refine ⟨⟨.arr (pySlice rows start (endOpt.getD (rows.length : Int))),
      comp, co, at0, false⟩,
      [.trimmed path rows.length
        (pySlice rows start (endOpt.getD (rows.length : Int))).length],
      by simp [copyDataset, hn, hlt], rfl, rfl⟩
  · refine ⟨⟨.arr rows, comp, co, at0, false⟩,
      [.copiedFull path rows.length],
      by simp [copyDataset, hn, hlt], rfl, rfl⟩

/-- Witness for `c3_compression_preserved`: rows `[1, 2]`, window `[0, 1)`,
gzip level 6. -/
theorem c3_compression_preserved_witness :
    ∃ d2 lg, copyDataset 0 (some 1) "w3"
        ⟨.arr [1, 2], some "gzip", some 6, [], false⟩
        = (some d2, lg)
      ∧ d2.compression = some "gzip" ∧ d2.compression_opts = some 6 :=
  c3_compression_preserved [1, 2] 0 (some 1) (some "gzip") (some 6) [] "w3"
    (by decide)

/-- Claim C9: every non-failing scalar dataset, and every non-failing
dataset with leading extent zero, is copied to the destination with its
payload unchanged, for every slice window. -/
theorem c9_scalar_and_empty_copied (start : Int) (endOpt : Option Int)
    (path : String) (v : Int) (comp : Option String) (co : Option Nat)
    (at0 : List (String × String)) :
    copyDataset start endOpt path ⟨.scalarVal v, comp, co, at0, false⟩
        = (some ⟨.scalarVal v, none, none, at0, false⟩, [])
      ∧ copyDataset start endOpt path ⟨.arr [], comp, co, at0, false⟩
        = (some ⟨.arr [], none, none, at0, false⟩, []) := by
  exact ⟨by simp [copyDataset], by simp [copyDataset]⟩

/-- Claim C4 as written is refuted here: the invocation `--range -5 3` has a
negative start, yet window resolution accepts it (since `-5 < 3` passes the
only check performed), and the copy then performs a trim with the negative
start: on a ten-row dataset, Python slice `[-5:3]` resolves to the empty
range `[5, 3)` and an empty dataset is written with a "trimmed 10 -> 0"
progress record. -/
theorem c4_counterexample :
    resolveWindow none (some (-5, 3)) = .window (-5) 3
      ∧ copyDataset (-5) (some 3) "p"
          ⟨.arr [1, 2, 3, 4, 5, 6, 7, 8, 9, 10], none, none, [], false⟩
        = (some ⟨.arr [], none, none, [], false⟩, [.trimmed "p" 10 0]) := by
  exact ⟨rfl, rfl⟩

/-- Claim C4 (amended): the only window validation performed before
traversal is `start < end` in range mode; every range invocation with
`start < end` is accepted and proceeds to the copy with that window,
including negative starts — `start ≥ 0` is never checked. -/
theorem c4_range_validation (s e : Int) (h : s < e) :
    resolveWindow none (some (s, e)) = .window s e := by
  have hge : ¬ s ≥ e := by omega
  simp [resolveWindow, hge]

/-- Witness for `c4_range_validation` at the negative start `-5 < 3`. -/
theorem c4_range_validation_witness :
    resolveWindow none (some (-5, 3)) = .window (-5) 3 :=
  c4_range_validation (-5) 3 (by decide)

/-- Claim C5 as written is refuted here: invoking row-count mode with
`N = 0` does not resolve to the window `[0, 0)`; `if args.rows:` is false
for `0`, so control falls into the range branch where `args.range` is
`None` and `args.range[0]` raises an unhandled TypeError. -/
theorem c5_counterexample :
    resolveWindow (some 0) none = .crash
      ∧ ResolveResult.crash ≠ .window 0 0 := by
  exact ⟨rfl, by decide⟩

/-- Claim C5 (amended): for every positive integer `N`, row-count mode
resolves to the window `[0, N)` (start `0`, end `N`) and the copy proceeds;
`N = 0` instead falls through to the range branch and crashes. -/
theorem c5_rows_mode (N : Int) (h : 0 < N) :
    resolveWindow (some N) none = .window 0 N := by
  have hz : N ≠ 0 := by omega
  simp [resolveWindow, hz]

/-- Witness for `c5_rows_mode` at `N = 100`. -/
theorem c5_rows_mode_witness :
    resolveWindow (some 100) none = .window 0 100 :=
  c5_rows_mode 100 (by decide)

/-- Claim C10: row-count mode with a negative `N` is accepted without a
usage error (resolving to start `0`, end `N`), and on a non-failing dataset
with leading extent `n` satisfying `n > -N > 0` the copy trims: the
destination dataset equals source rows `[0, n + N)` element-for-element. -/
theorem c10_negative_rows (N : Int) (rows : List Int) (comp : Option String)
    (co : Option Nat) (at0 : List (String × String)) (path : String)
    (hN : N < 0) (hn : 0 < (rows.length : Int) + N) :
    resolveWindow (some N) none = .window 0 N
      ∧ copyDataset 0 (some N) path ⟨.arr rows, comp, co, at0, false⟩
        = (some ⟨.arr (rows.take ((rows.length : Int) + N).toNat),
                comp, co, at0, false⟩,
           [.trimmed path rows.length
              (rows.take ((rows.length : Int) + N).toNat).length])
      ∧ ∀ i : Nat, i < ((rows.length : Int) + N).toNat →
          (rows.take ((rows.length : Int) + N).toNat)[i]? = rows[i]? := by
  have hlen : 0 < rows.length := by omega
  have hlt : N < (rows.length : Int) := by omega
  refine ⟨?_, ?_, ?_⟩
  · have hz : N ≠ 0 := by omega
    simp [resolveWindow, hz]
  · simp [copyDataset, hlen, hlt, pySlice, pyIdx, hN]
  · intro i hi
    exact List.getElem?_take_of_lt hi

/-- Witness for `c10_negative_rows`: `N = -2` on a five-row dataset yields
the first three rows. -/
theorem c10_negative_rows_witness :
    resolveWindow (some (-2)) none = .window 0 (-2)
      ∧ copyDataset 0 (some (-2)) "wn"
          ⟨.arr [1, 2, 3, 4, 5], none, none, [], false⟩
        = (some ⟨.arr ([1, 2, 3, 4, 5].take
                  (((5 : Nat) : Int) + (-2)).toNat), none, none, [], false⟩,
           [.trimmed "wn" 5
              ([1, 2, 3, 4, 5].take (((5 : Nat) : Int) + (-2)).toNat).length])
      ∧ ∀ i : Nat, i < (((5 : Nat) : Int) + (-2)).toNat →
          ([(1 : Int), 2, 3, 4, 5].take (((5 : Nat) : Int) + (-2)).toNat)[i]?
            = [(1 : Int), 2, 3, 4, 5][i]? :=
  c10_negative_rows (-2) [1, 2, 3, 4, 5] none none [] "wn" (by decide)
    (by decide)

/-- Claim C7: when the output path exists and overwrite is not forced,
`trim_hdf5` exits with the "output already exists" error before performing
any write — the result carries no destination content, so an existing
output (in particular a previous run's output) is left untouched. -/
theorem c7_output_exists_no_overwrite (input : H5File) (start : Int)
    (endOpt : Option Int) :
    trim_hdf5 input true false start endOpt = .existsError := by
  simp [trim_hdf5]

/-- Claim C6: per-dataset errors are isolated while structural errors
abort.  A failing dataset at the head of a sibling list yields exactly the
result of copying the remaining siblings, with a warning naming the
dataset's path prepended and the dataset absent from the destination; a
failing group creation aborts with an error; an unopenable source, a
failing root-attribute copy, or an error propagated out of the traversal
each abort the whole `trim_hdf5` run. -/
theorem c6_error_isolation (start : Int) (endOpt : Option Int)
    (path k : String) (d : Dataset) (a : List (String × String))
    (cs rest : List (String × Node)) (input : H5File) (force : Bool)
    (s2 : Int) (e2 : Option Int) (m : String)
    (hd : d.fail = true) :
    (copyChildren start endOpt path ((k, Node.dataset d) :: rest) =
      match copyChildren start endOpt path rest with
      | .ok (ro, lg2) => .ok (ro, Progress.warning (joinPath path k) :: lg2)
      | .error m2 => .error m2)
      ∧ copyChildren start endOpt path ((k, Node.group a true cs) :: rest)
          = .error (joinPath path k)
      ∧ (input.openFail = true →
          trim_hdf5 input false force s2 e2 = .abort "cannot open file")
      ∧ (input.openFail = false → input.attrsFail = true →
          trim_hdf5 input false force s2 e2
            = .abort "root attribute copy failed")
      ∧ (input.openFail = false → input.attrsFail = false →
          copyChildren s2 e2 "" input.root = .error m →
          trim_hdf5 input false force s2 e2 = .abort m) := by
  refine ⟨?_, ?_, ?_, ?_, ?_⟩
  · simp only [copyChildren, copyDataset, hd, if_true]
    cases hrest : copyChildren start endOpt path rest with
    | ok pr => cases pr; simp
    | error m2 => simp
  · simp [copyChildren]
  · intro ho
    simp [trim_hdf5, ho]
  · intro ho ha
    simp [trim_hdf5, ho, ha]
  · intro ho ha hcc
    simp [trim_hdf5, ho, ha, hcc]

/-- Witness for `c6_error_isolation`: a single failing dataset `bad` as the
whole sibling list, and the `sampleInput` file (which opens fine). -/
theorem c6_error_isolation_witness :
    (copyChildren 0 none ""
        ((("bad", Node.dataset ⟨.arr [1], none, none, [], true⟩)) :: []) =
      match copyChildren 0 none "" [] with
      | .ok (ro, lg2) => .ok (ro, Progress.warning (joinPath "" "bad") :: lg2)
      | .error m2 => .error m2)
      ∧ copyChildren 0 none "" ((("bad", Node.group [] true [])) :: [])
          = .error (joinPath "" "bad")
      ∧ (sampleInput.openFail = true →
          trim_hdf5 sampleInput false false 0 none = .abort "cannot open file")
      ∧ (sampleInput.openFail = false → sampleInput.attrsFail = true →
          trim_hdf5 sampleInput false false 0 none
            = .abort "root attribute copy failed")
      ∧ (sampleInput.openFail = false → sampleInput.attrsFail = false →
          copyChildren 0 none "" sampleInput.root = .error "g" →
          trim_hdf5 sampleInput false false 0 none = .abort "g") :=
  c6_error_isolation 0 none "" "bad" ⟨.arr [1], none, none, [], true⟩ [] [] []
    sampleInput false 0 none "g" rfl

/-- Every dataset created in the destination carries exactly the source
dataset's attributes (all three branches of the dataset-copy policy copy
the attribute items). -/
theorem copyDataset_attrs (start : Int) (endOpt : Option Int) (p : String)
    (d d2 : Dataset) (lg : List Progress)
    (h : copyDataset start endOpt p d = (some d2, lg)) :
    d2.attrs = d.attrs := by
  rcases d with ⟨pl, comp, co, at0, fl⟩
  cases fl
  · cases pl with
    | scalarVal v =>
      simp only [copyDataset, Bool.false_eq_true, if_false, Prod.mk.injEq,
        Option.some.injEq] at h
      obtain ⟨h1, h2⟩ := h
      subst h1
      rfl
    | arr rows =>
      simp only [copyDataset, Bool.false_eq_true, if_false] at h
      split at h
      · split at h
        · simp only [Prod.mk.injEq, Option.some.injEq] at h
          obtain ⟨h1, h2⟩ := h
          subst h1
          rfl
        · simp only [Prod.mk.injEq, Option.some.injEq] at h
          obtain ⟨h1, h2⟩ := h
          subst h1
          rfl
      · simp only [Prod.mk.injEq, Option.some.injEq] at h
        obtain ⟨h1, h2⟩ := h
        subst h1
        rfl
  · simp [copyDataset] at h

/-- Every child created in the destination by the traversal corresponds to
the same-named source child, with attributes preserved recursively. -/
theorem copyChildren_attrs_pres (start : Int) (endOpt : Option Int)
    (path : String) (cs : List (String × Node)) :
    ∀ (out : List (String × Node)) (lg : List Progress),
      copyChildren start endOpt path cs = .ok (out, lg) →
      ∀ k n2, (k, n2) ∈ out → ∃ n, (k, n) ∈ cs ∧ AttrsMatch n n2 := by
  induction path, cs using copyChildren.induct start endOpt with
  | case1 path =>
    intro out lg h k n2 hm
    simp only [copyChildren, Except.ok.injEq, Prod.mk.injEq] at h
    obtain ⟨h1, h2⟩ := h
    subst h1
    simp at hm
  | case2 path k0 d rest d2 lg1 hcd ro lg2 hrest ih =>
    intro out lg h k n2 hm
    simp only [copyChildren, hcd, hrest, Except.ok.injEq, Prod.mk.injEq] at h
    obtain ⟨h1, h2⟩ := h
    subst h1
    rcases List.mem_cons.mp hm with hh | ht
    · rw [Prod.mk.injEq] at hh
      obtain ⟨hk, hn⟩ := hh
      subst hk
      subst hn
      refine ⟨Node.dataset d, List.mem_cons_self _ _, ?_⟩
      simp only [AttrsMatch]
      exact copyDataset_attrs _ _ _ _ _ _ hcd
    · obtain ⟨n, hn1, hn2⟩ := ih _ _ hrest k n2 ht
      exact ⟨n, List.mem_cons_of_mem _ hn1, hn2⟩
  | case3 path k0 d rest d2 lg1 hcd m hrest ih =>
    intro out lg h
    simp [copyChildren, hcd, hrest] at h
  | case4 path k0 d rest lg1 hcd ro lg2 hrest ih =>
    intro out lg h k n2 hm
    simp only [copyChildren, hcd, hrest, Except.ok.injEq, Prod.mk.injEq] at h
    obtain ⟨h1, h2⟩ := h
    subst h1
    obtain ⟨n, hn1, hn2⟩ := ih _ _ hrest k n2 hm
    exact ⟨n, List.mem_cons_of_mem _ hn1, hn2⟩
  | case5 path k0 d rest lg1 hcd m hrest ih =>
    intro out lg h
    simp [copyChildren, hcd, hrest] at h
  | case6 path k0 a cs rest =>
    intro out lg h
    simp [copyChildren] at h
  | case7 path k0 a gf cs rest hgf m hsub ih =>
    intro out lg h
    simp [copyChildren, hgf, hsub] at h
  | case8 path k0 a gf cs rest hgf ro1 lgs hsub m hrest ih2 ih1 =>
    intro out lg h
    simp [copyChildren, hgf, hsub, hrest] at h
  | case9 path k0 a gf cs rest hgf ro1 lgs hsub ro lg2 hrest ih2 ih1 =>
    intro out lg h k n2 hm
    simp only [copyChildren, if_neg hgf, hsub, hrest, Except.ok.injEq,
      Prod.mk.injEq] at h
    obtain ⟨h1, h2⟩ := h
    subst h1
    rcases List.mem_cons.mp hm with hh | ht
    · rw [Prod.mk.injEq] at hh
      obtain ⟨hk, hn⟩ := hh
      subst hk
      subst hn
      refine ⟨Node.group a gf cs, List.mem_cons_self _ _, ?_⟩
      simp only [AttrsMatch]
      refine ⟨by simp, ?_⟩
      exact ih2 _ _ hsub
    · obtain ⟨n, hn1, hn2⟩ := ih1 _ _ hrest k n2 ht
      exact ⟨n, List.mem_cons_of_mem _ hn1, hn2⟩

/-- Claim C8: whenever `trim_hdf5` succeeds, the destination root carries
exactly the source root attributes, and every destination node corresponds
to the same-named source node with its attribute set preserved, recursively
through all groups and datasets. -/
theorem c8_attrs_preserved (input : H5File) (ex force : Bool) (start : Int)
    (endOpt : Option Int) (as2 : List (String × String))
    (rt : List (String × Node)) (lg : List Progress)
    (h : trim_hdf5 input ex force start endOpt = .ok as2 rt lg) :
    as2 = input.attrs
      ∧ ∀ k n2, (k, n2) ∈ rt →
          ∃ n, (k, n) ∈ input.root ∧ AttrsMatch n n2 := by
  unfold trim_hdf5 at h
  split at h
  · simp at h
  · split at h
    · simp at h
    · split at h
      · simp at h
      · cases hcc : copyChildren start endOpt "" input.root with
        | ok pr =>
          obtain ⟨out, lg0⟩ := pr
          rw [hcc] at h
          simp only [TrimResult.ok.injEq] at h
          obtain ⟨h1, h2, h3⟩ := h
          subst h1
          subst h2
          exact ⟨rfl, copyChildren_attrs_pres _ _ _ _ _ _ hcc⟩
        | error m =>
          rw [hcc] at h
          simp at h

/-- Witness for `c8_attrs_preserved` on `sampleInput`. -/
theorem c8_attrs_preserved_witness :
    [("ver", "3")] = sampleInput.attrs
      ∧ ∀ k n2, (k, n2) ∈ sampleOut →
          ∃ n, (k, n) ∈ sampleInput.root ∧ AttrsMatch n n2 :=
  c8_attrs_preserved sampleInput false false 0 none [("ver", "3")] sampleOut
    [] (by simp [trim_hdf5, sampleInput, sampleOut, copyChildren,
          copyDataset])
